import Mathlib

/-!
# Verification of the F5 monitoring agent (`f5_agent.py`)

Shallow embedding of the poll/diff/publish core of `F5Agent` and of the
console dispatch, with theorems checking the specification's claims.

Conventions of the embedding:
* Python `Optional[List[...]]` return values (a `None` on request failure)
  become `Option (List _)`.
* Python truthiness tests on such values (`if pool_members:`) become
  `truthyList`, which is `false` both for `none` and for `some []`.
* The per-member JSON records use `Option` fields; `dict.get(k, default)`
  becomes `Option.getD`.
* `self.last_pool_states` (a Python dict used only via `in`, `[]` lookup
  and `[]=` assignment) becomes a function `String → Option String`;
  assignment is pointwise update.
* Python string operations are modelled on `String.data` (the character
  list) over the ASCII fragment: `.strip()` drops leading/trailing
  whitespace characters, `.lower()` maps `Char.toLower` (which lowers
  exactly `A`–`Z`, as Python does on ASCII), `s[5:]` drops 5 characters,
  `.startswith(p)` is list prefix.
-/

/-- A fully-populated pool-member record as built by
`F5Agent.get_pool_members` (source lines 96–103). -/
structure PoolMember where
  pool : String
  member : String
  state : String
  session : String
  address : String
  connectionLimit : Int
deriving DecidableEq, Repr

/-- The loosely-typed JSON record for one member returned by the per-pool
members endpoint; a missing field is `none` (source uses `member.get(...)`
with defaults). -/
structure MemberJson where
  name : Option String
  state : Option String
  session : Option String
  address : Option String
  connectionLimit : Option Int
deriving DecidableEq, Repr

/-- The loosely-typed JSON record for one pool returned by the pool-list
endpoint; only its `name` is consumed (source line 85). -/
structure PoolJson where
  name : Option String
deriving DecidableEq, Repr

/-- `pool.get("name", "unknown")` (source line 85). -/
def pjName (p : PoolJson) : String := p.name.getD "unknown"

/-- Building one entry of `pool_info` from a member JSON record
(source lines 96–103): every missing field is replaced by its
documented sentinel. -/
def memberRecord (pool_name : String) (m : MemberJson) : PoolMember :=
  { pool := pool_name
    member := m.name.getD "unknown"
    state := m.state.getD "unknown"
    session := m.session.getD "unknown"
    address := m.address.getD "unknown"
    connectionLimit := m.connectionLimit.getD 0 }

/-- `F5Agent.get_pool_members` (source lines 73–112). The outer fetch of
the pool list is `outer` (`none` models a `RequestException` on the pool
list request, making the whole call return `None`); `perPool n` is the
result of the per-pool members request for pool `n` (`none` models a
`RequestException` there, which the source catches at lines 105–106,
logs, and skips, continuing with the remaining pools). `poolEntries` is
the body of the per-pool `try` block (source lines 88–106): the records
contributed by one pool, which is the empty contribution when that
pool's members request failed. -/
def poolEntries (perPool : String → Option (List MemberJson))
    (p : PoolJson) : List PoolMember :=
  match perPool (pjName p) with
  | none => []
  | some members => members.map (memberRecord (pjName p))

/-- The outer structure of `F5Agent.get_pool_members`: `none` if the pool
list request failed, else the concatenated per-pool contributions in pool
order. -/
def get_pool_members (outer : Option (List PoolJson))
    (perPool : String → Option (List MemberJson)) : Option (List PoolMember) :=
  match outer with
  | none => none
  | some pools => some (pools.flatMap (poolEntries perPool))

/-- The diff key `f"{member['pool']}/{member['member']}"` (source line 155). -/
def stateKey (m : PoolMember) : String := m.pool ++ "/" ++ m.member

/-- One `STATE CHANGE` notification printed by the monitor loop
(source line 160): key, previous recorded state, freshly fetched state. -/
structure Transition where
  key : String
  prev : String
  curr : String
deriving DecidableEq, Repr

/-- The `self.last_pool_states` dict, as a map from state keys to the
last recorded state. -/
abbrev StateMap := String → Option String

/-- The body of the `if key in self.last_pool_states:` check for one
member (source lines 158–161): a notification is emitted exactly when the
key is recorded and the recorded state differs from the fetched state. -/
def headEvent (states : StateMap) (m : PoolMember) : List Transition :=
  match states (stateKey m) with
  | some prev => if prev = m.state then [] else [⟨stateKey m, prev, m.state⟩]
  | none => []

/-- The `for member in pool_members:` diff loop (source lines 154–163):
for each member in fetched order, emit its notification (if any), then
always record the fetched state for its key. Returns the emitted
notifications in order, and the final state map. -/
def diffLoop (states : StateMap) : List PoolMember → List Transition × StateMap
  | [] => ([], states)
  | m :: rest =>
      let states' : StateMap :=
        fun q => if q = stateKey m then some m.state else states q
      (headEvent states m ++ (diffLoop states' rest).1, (diffLoop states' rest).2)

/-- The mutable fields of `F5Agent` touched by the monitor loop
(source lines 22–25). -/
structure AgentState where
  last_pool_states : StateMap
  current_pool_members : List PoolMember
  current_logs : List String

/-- Python truthiness of an `Optional[List[...]]` value: `None` and the
empty list are both falsy (`if logs:`, `if pool_members:`,
source lines 145 and 150). -/
def truthyList {α : Type} (o : Option (List α)) : Bool :=
  match o with
  | none => false
  | some l => !l.isEmpty

/-- One iteration of `F5Agent.monitor_f5_background` (source lines
142–165): store the fetched logs if truthy, then, if the fetched member
list is truthy, store it as `current_pool_members` and run the diff loop
over it (the source assigns `current_pool_members` before the loop; the
loop does not read it, so the order is immaterial to the final state).
Returns the updated agent fields and the notifications emitted. -/
def monitorCycle (s : AgentState) (lf : Option (List String))
    (pf : Option (List PoolMember)) : AgentState × List Transition :=
  let s1 := if truthyList lf then { s with current_logs := lf.getD [] } else s
  if truthyList pf then
    let pms := pf.getD []
    let d := diffLoop s1.last_pool_states pms
    ({ s1 with current_pool_members := pms, last_pool_states := d.2 }, d.1)
  else
    (s1, [])

/-- The fetch results feeding one poll cycle: system logs and pool
members, each `none` on request failure. -/
abbrev CycleInput := Option (List String) × Option (List PoolMember)

/-- The `while self.monitoring:` monitor loop (source lines 141–170)
run over a finite script of per-cycle fetch results (the script length is
the number of cycles executed before the monitoring flag is observed
clear). Each cycle ends in `time.sleep(interval)` — recorded here as the
slept duration paired with the cycle's notifications; the `except` arm
(lines 167–170) also sleeps and continues, so no cycle outcome can end
the loop early. -/
def monitorRun (interval : Nat) (s : AgentState) :
    List CycleInput → AgentState × List (List Transition × Nat)
  | [] => (s, [])
  | (lf, pf) :: rest =>
      let c := monitorCycle s lf pf
      let r := monitorRun interval c.1 rest
      (r.1, (c.2, interval) :: r.2)

/-- What the console can read of the shared agent fields: the log list and
the pool-member list (`self.current_logs`, `self.current_pool_members`). -/
structure ConsoleView where
  logs : List String
  members : List PoolMember
deriving DecidableEq, Repr

/-- The console's view of an agent state. -/
def view (s : AgentState) : ConsoleView :=
  ⟨s.current_logs, s.current_pool_members⟩

/-- The sequence of views a concurrent console reader can observe during
one poll cycle. The cycle body performs two separate attribute
assignments: `self.current_logs = logs` (line 146) and
`self.current_pool_members = pool_members` (line 151), with a network
fetch between them; in CPython each single attribute assignment is atomic
(the console thread sees the old or the new list object, never a torn
one), but the console may run between the two assignments. The observable
views are therefore: before the cycle, after the log assignment, and
after the member assignment — with an assignment skipped when its fetch
result is falsy. -/
def cycleViews (s : AgentState) (lf : Option (List String))
    (pf : Option (List PoolMember)) : List ConsoleView :=
  let v0 := view s
  let v1 := if truthyList lf then { v0 with logs := lf.getD [] } else v0
  let v2 := if truthyList pf then { v1 with members := pf.getD [] } else v1
  [v0, v1, v2]

/-- Python `str.strip()` whitespace test over the ASCII fragment:
space, tab, newline, carriage return, vertical tab, form feed. -/
def isPySpace (c : Char) : Bool :=
  c = ' ' ∨ c = '\t' ∨ c = '\n' ∨ c = '\r' ∨ c = '\x0b' ∨ c = '\x0c'

/-- Python `s.strip()`: drop leading and trailing whitespace. -/
def pyStrip (s : String) : String :=
  String.mk (((s.data.dropWhile isPySpace).reverse.dropWhile isPySpace).reverse)

/-- Python `s.lower()` on the ASCII fragment: `Char.toLower` maps exactly
`A`–`Z` to `a`–`z` and leaves every other character unchanged, which is
Python's behaviour on ASCII input. -/
def pyLower (s : String) : String :=
  String.mk (s.data.map Char.toLower)

/-- Python `s[n:]`. -/
def pySliceFrom (s : String) (n : Nat) : String :=
  String.mk (s.data.drop n)

/-- Python `s.startswith(p)`. -/
def pyStartsWith (s p : String) : Bool :=
  p.data.isPrefixOf s.data

/-- `input("> ").strip().lower()` applied to the raw line
(source line 190): strip first, then lowercase the whole line. -/
def consoleCommand (s : String) : String :=
  pyLower (pyStrip s)

/-- What can reach the console loop from `input()`: a line of text,
`KeyboardInterrupt`, or `EOFError` (source lines 190, 214, 218). -/
inductive ConsoleEvent where
  | line (s : String)
  | interrupt
  | eof
deriving DecidableEq, Repr

/-- The primitive actions the console body can perform, in program order.
`setMonitoring b` is the assignment `self.monitoring = b`;
`startPollerDaemon d` is creating and starting the monitor thread with
`daemon=d` (source lines 185–186); `joinPoller` would be a
`monitor_thread.join()` — it is in the action vocabulary so that the
embedding can express whether the source ever waits for the poller. -/
inductive ConsoleAction where
  | setMonitoring (b : Bool)
  | startPollerDaemon (daemon : Bool)
  | joinPoller
  | printGoodbye
  | showHelp
  | showStatus
  | showPools
  | showVirtuals
  | showPoolDetails (pool_name : String)
  | showLogs
  | showSummary
  | printUnknown
deriving DecidableEq, Repr

/-- Whether the console loop continues to the next `input()` or breaks
out (after which `interactive_mode` returns and the process exits). -/
inductive LoopCtl where
  | cont
  | halt
deriving DecidableEq, Repr

/-- The startup of `interactive_mode` relevant to the poller
(source lines 184–186): set the monitoring flag, then start the monitor
thread as a daemon thread. -/
def interactiveSetup : List ConsoleAction :=
  [ConsoleAction.setMonitoring true, ConsoleAction.startPollerDaemon true]

/-- One iteration of the `interactive_mode` read-eval loop
(source lines 188–221): the actions performed for the event, in order,
and whether the loop continues. The `if/elif` chain is translated
branch-for-branch in source order; `KeyboardInterrupt` and `EOFError`
take the two `except` arms. -/
def consoleStep : ConsoleEvent → List ConsoleAction × LoopCtl
  | ConsoleEvent.interrupt =>
      ([ConsoleAction.setMonitoring false, ConsoleAction.printGoodbye], LoopCtl.halt)
  | ConsoleEvent.eof =>
      ([ConsoleAction.setMonitoring false, ConsoleAction.printGoodbye], LoopCtl.halt)
  | ConsoleEvent.line s =>
      if consoleCommand s = "quit" ∨ consoleCommand s = "exit" then
        ([ConsoleAction.setMonitoring false, ConsoleAction.printGoodbye], LoopCtl.halt)
      else if consoleCommand s = "help" then
        ([ConsoleAction.showHelp], LoopCtl.cont)
      else if consoleCommand s = "status" then
        ([ConsoleAction.showStatus], LoopCtl.cont)
      else if consoleCommand s = "pools" then
        ([ConsoleAction.showPools], LoopCtl.cont)
      else if consoleCommand s = "virtual" ∨ consoleCommand s = "virtuals" then
        ([ConsoleAction.showVirtuals], LoopCtl.cont)
      else if pyStartsWith (consoleCommand s) "pool " then
        ([ConsoleAction.showPoolDetails (pySliceFrom (consoleCommand s) 5)], LoopCtl.cont)
      else if consoleCommand s = "logs" then
        ([ConsoleAction.showLogs], LoopCtl.cont)
      else if consoleCommand s = "summary" then
        ([ConsoleAction.showSummary], LoopCtl.cont)
      else
        ([ConsoleAction.printUnknown], LoopCtl.cont)

/-- The observable outcome of `show_pool_details`: either the
`Pool '<name>' not found.` message or the filtered member list it
renders. -/
inductive PoolDetailsResult where
  | notFound (pool_name : String)
  | details (pool_members : List PoolMember)
deriving DecidableEq, Repr

/-- `F5Agent.show_pool_details` (source lines 274–289): filter the stored
members by exact pool-name equality; if nothing matches, report not
found, else render the matching members. -/
def show_pool_details (current_pool_members : List PoolMember)
    (pool_name : String) : PoolDetailsResult :=
  let pool_members := current_pool_members.filter fun m => m.pool == pool_name
  if pool_members.isEmpty then PoolDetailsResult.notFound pool_name
  else PoolDetailsResult.details pool_members

/-- `up_members` of `show_summary` (source line 323). -/
def up_members (ms : List PoolMember) : Nat :=
  (ms.filter fun m => m.state == "up").length

/-- `down_members` of `show_summary` (source line 324). -/
def down_members (ms : List PoolMember) : Nat :=
  (ms.filter fun m => m.state == "down").length

/-- `health_percentage` of `show_summary` (source line 326):
`up_members / total_members * 100 if total_members > 0 else 0`. Python
computes this in floating point; for the ratios considered here (small
integer counts) the float result is exact, so ℚ is a faithful model. -/
def health_percentage (ms : List PoolMember) : ℚ :=
  if ms.length > 0 then (up_members ms : ℚ) / (ms.length : ℚ) * 100 else 0

/-- The health figure printed by `show_summary` (source lines 321–328):
the whole block is guarded by `if self.current_pool_members:`, so with an
empty member list nothing is computed at all (`none`). -/
def show_summary_health (ms : List PoolMember) : Option ℚ :=
  if ms.isEmpty then none else some (health_percentage ms)

/-- The `Members DOWN` lines printed by `show_summary`
(source lines 331–335): pool, member name and address of each stored
member whose state is `down`, in stored order. -/
def down_lines (ms : List PoolMember) : List (String × String × String) :=
  (ms.filter fun m => m.state == "down").map fun m => (m.pool, m.member, m.address)

/-- ASCII-uppercase test (`A`–`Z`), used to state the case-sensitivity
claims. -/
def isUpperASCII (c : Char) : Bool :=
  decide (65 ≤ c.toNat ∧ 90 ≥ c.toNat)

lemma toLower_toNat_not_upper (c : Char) :
    ¬ (65 ≤ (Char.toLower c).toNat ∧ (Char.toLower c).toNat ≤ 90) := by
  have h : Char.toLower c =
      (if c.toNat ≥ 65 ∧ c.toNat ≤ 90 then Char.ofNat (c.toNat + 32) else c) := rfl
  rw [h]
  by_cases hc : c.toNat ≥ 65 ∧ c.toNat ≤ 90
  · rw [if_pos hc]
    have hv : (Char.ofNat (c.toNat + 32)).toNat = c.toNat + 32 := by
      unfold Char.ofNat
      rw [dif_pos (Or.inl (by omega : c.toNat + 32 < 55296))]
      rfl
    rw [hv]
    omega
  · rw [if_neg hc]
    omega

lemma isUpperASCII_toLower (c : Char) : isUpperASCII (Char.toLower c) = false := by
  have h := toLower_toNat_not_upper c
  simp only [isUpperASCII, decide_eq_false_iff_not]
  exact fun hx => h ⟨hx.1, hx.2⟩

lemma pySliceFrom_consoleCommand_no_upper (s : String) :
    ∀ c ∈ (pySliceFrom (consoleCommand s) 5).data, isUpperASCII c = false := by
  intro c hc
  have hd : (pySliceFrom (consoleCommand s) 5).data
      = ((pyStrip s).data.map Char.toLower).drop 5 := rfl
  rw [hd] at hc
  obtain ⟨c0, _, rfl⟩ := List.mem_map.mp (List.mem_of_mem_drop hc)
  exact isUpperASCII_toLower c0

lemma headEvent_none (states : StateMap) (m : PoolMember)
    (hs : states (stateKey m) = none) : headEvent states m = [] := by
  simp [headEvent, hs]

lemma headEvent_eq (states : StateMap) (m : PoolMember) (prev : String)
    (hs : states (stateKey m) = some prev) (hp : prev = m.state) :
    headEvent states m = [] := by
  simp [headEvent, hs, hp]

lemma headEvent_ne (states : StateMap) (m : PoolMember) (prev : String)
    (hs : states (stateKey m) = some prev) (hp : prev ≠ m.state) :
    headEvent states m = [⟨stateKey m, prev, m.state⟩] := by
  simp [headEvent, hs, hp]

lemma headEvent_mem (states : StateMap) (m : PoolMember) (e : Transition)
    (he : e ∈ headEvent states m) :
    e = ⟨stateKey m, e.prev, m.state⟩ ∧ states (stateKey m) = some e.prev ∧
      e.prev ≠ m.state := by
  revert he
  cases hs : states (stateKey m) with
  | none => rw [headEvent_none _ _ hs]; intro he; cases he
  | some prev =>
      by_cases hp : prev = m.state
      · rw [headEvent_eq _ _ _ hs hp]; intro he; cases he
      · rw [headEvent_ne _ _ _ hs hp]
        intro he
        rw [List.mem_singleton] at he
        subst he
        refine ⟨rfl, rfl, ?_⟩
        simp [hp]

lemma diffLoop_cons_events (states : StateMap) (m0 : PoolMember)
    (rest : List PoolMember) :
    (diffLoop states (m0 :: rest)).1 =
      headEvent states m0 ++
      (diffLoop (fun q => if q = stateKey m0 then some m0.state else states q)
        rest).1 := rfl

lemma diffLoop_cons_state (states : StateMap) (m0 : PoolMember)
    (rest : List PoolMember) :
    (diffLoop states (m0 :: rest)).2 =
      (diffLoop (fun q => if q = stateKey m0 then some m0.state else states q)
        rest).2 := rfl

lemma diffLoop_key_mem (ms : List PoolMember) :
    ∀ (states : StateMap) (e : Transition), e ∈ (diffLoop states ms).1 →
      e.key ∈ ms.map stateKey := by
  induction ms with
  | nil =>
      intro states e he
      simp [diffLoop] at he
  | cons m0 rest ih =>
      intro states e he
      rw [diffLoop_cons_events, List.mem_append] at he
      rcases he with h | h
      · obtain ⟨he, _, _⟩ := headEvent_mem _ _ _ h
        rw [he]
        simp [List.map_cons]
      · simp only [List.map_cons, List.mem_cons]
        exact Or.inr (ih _ e h)

lemma diffLoop_apply_not_mem (ms : List PoolMember) :
    ∀ (states : StateMap) (K : String), K ∉ ms.map stateKey →
      (diffLoop states ms).2 K = states K := by
  induction ms with
  | nil => intro states K _; rfl
  | cons m0 rest ih =>
      intro states K hK
      simp only [List.map_cons, List.mem_cons, not_or] at hK
      rw [diffLoop_cons_state, ih _ _ hK.2]
      exact if_neg hK.1

lemma diffLoop_apply_mem (ms : List PoolMember) :
    ∀ (states : StateMap), (ms.map stateKey).Nodup →
      ∀ m ∈ ms, (diffLoop states ms).2 (stateKey m) = some m.state := by
  induction ms with
  | nil => intro states _ m hm; cases hm
  | cons m0 rest ih =>
      intro states hnd m hm
      rw [List.map_cons, List.nodup_cons] at hnd
      obtain ⟨hk0, hnd'⟩ := hnd
      rcases List.mem_cons.mp hm with rfl | hm'
      · rw [diffLoop_cons_state, diffLoop_apply_not_mem _ _ _ hk0]
        simp
      · rw [diffLoop_cons_state]
        exact ih _ hnd' m hm'

lemma diffLoop_events_iff (ms : List PoolMember) :
    ∀ (states : StateMap) (K : String), (ms.map stateKey).Nodup →
      ((∃ e ∈ (diffLoop states ms).1, e.key = K) ↔
        ∃ m ∈ ms, stateKey m = K ∧
          ∃ prev, states K = some prev ∧ prev ≠ m.state) := by
  induction ms with
  | nil =>
      intro states K _
      simp [diffLoop]
  | cons m0 rest ih =>
      intro states K hnd
      rw [List.map_cons, List.nodup_cons] at hnd
      obtain ⟨hk0, hnd'⟩ := hnd
      constructor
      · rintro ⟨e, he, hek⟩
        rw [diffLoop_cons_events, List.mem_append] at he
        rcases he with h | h
        · obtain ⟨heq, hs, hp⟩ := headEvent_mem _ _ _ h
          have hk : stateKey m0 = K := by rw [heq] at hek; exact hek
          subst hk
          exact ⟨m0, List.mem_cons_self _ _, rfl, e.prev, hs, hp⟩
        · obtain ⟨m, hm, hkey, prev, hsp, hne⟩ := (ih _ K hnd').mp ⟨e, h, hek⟩
          have hKne : K ≠ stateKey m0 := by
            intro hKe
            apply hk0
            rw [← hKe, ← hkey]
            exact List.mem_map_of_mem _ hm
          refine ⟨m, List.mem_cons_of_mem _ hm, hkey, prev, ?_, hne⟩
          have hsp2 : (if K = stateKey m0 then some m0.state else states K)
              = some prev := hsp
          rw [if_neg hKne] at hsp2
          exact hsp2
      · rintro ⟨m, hm, hkey, prev, hsp, hne⟩
        rcases List.mem_cons.mp hm with rfl | hm'
        · subst hkey
          refine ⟨⟨stateKey m, prev, m.state⟩, ?_, rfl⟩
          rw [diffLoop_cons_events, List.mem_append]
          left
          rw [headEvent_ne _ _ _ hsp hne]
          exact List.mem_singleton.mpr rfl
        · have hKne : K ≠ stateKey m0 := by
            intro hKe
            apply hk0
            rw [← hKe, ← hkey]
            exact List.mem_map_of_mem _ hm'
          have hsp' : (fun q => if q = stateKey m0 then some m0.state else states q) K
              = some prev := by
            show (if K = stateKey m0 then some m0.state else states K) = some prev
            rw [if_neg hKne]
            exact hsp
          obtain ⟨e, he, hek⟩ :=
            (ih (fun q => if q = stateKey m0 then some m0.state else states q) K
              hnd').mpr ⟨m, hm', hkey, prev, hsp', hne⟩
          refine ⟨e, ?_, hek⟩
          rw [diffLoop_cons_events, List.mem_append]
          exact Or.inr he

lemma ite_logs_last (s : AgentState) (lf : Option (List String)) :
    (if truthyList lf then { s with current_logs := lf.getD [] }
      else s).last_pool_states = s.last_pool_states := by
  split <;> rfl

lemma ite_logs_members (s : AgentState) (lf : Option (List String)) :
    (if truthyList lf then { s with current_logs := lf.getD [] }
      else s).current_pool_members = s.current_pool_members := by
  split <;> rfl

lemma monitorCycle_events (s : AgentState) (lf : Option (List String))
    (pf : Option (List PoolMember)) (hpf : truthyList pf = true) :
    (monitorCycle s lf pf).2 = (diffLoop s.last_pool_states (pf.getD [])).1 := by
  simp only [monitorCycle]
  rw [if_pos hpf, ite_logs_last]

lemma monitorCycle_last (s : AgentState) (lf : Option (List String))
    (pf : Option (List PoolMember)) (hpf : truthyList pf = true) :
    (monitorCycle s lf pf).1.last_pool_states
      = (diffLoop s.last_pool_states (pf.getD [])).2 := by
  simp only [monitorCycle]
  rw [if_pos hpf]
  rw [ite_logs_last]

lemma monitorCycle_members_of_truthy (s : AgentState) (lf : Option (List String))
    (pf : Option (List PoolMember)) (hpf : truthyList pf = true) :
    (monitorCycle s lf pf).1.current_pool_members = pf.getD [] := by
  simp only [monitorCycle]
  rw [if_pos hpf]

/-- C1: in a poll cycle whose member fetch is truthy, a state-change
notification for key `K` is emitted iff some fetched member has key `K`,
`K` already has a recorded state in `last_pool_states` as it was before
the cycle's diff, and that recorded state differs from the member's
freshly fetched state; in particular a key with no recorded state (first
sight) never fires. Keys are assumed pairwise distinct in the fetched
list, the data model's uniqueness invariant for member identity. -/
theorem C1_transition_iff (s : AgentState) (lf : Option (List String))
    (pf : Option (List PoolMember)) (K : String)
    (hpf : truthyList pf = true)
    (hnd : ((pf.getD []).map stateKey).Nodup) :
    (∃ e ∈ (monitorCycle s lf pf).2, e.key = K) ↔
      ∃ m ∈ pf.getD [], stateKey m = K ∧
        ∃ prev, s.last_pool_states K = some prev ∧ prev ≠ m.state := by
  rw [monitorCycle_events s lf pf hpf]
  exact diffLoop_events_iff _ _ _ hnd

/-- A concrete fetched member used by witnesses: `poolA/m1` fetched
`down`. -/
def wMember : PoolMember :=
  { pool := "poolA", member := "m1", state := "down",
    session := "monitor-enabled", address := "10.0.0.1", connectionLimit := 0 }

/-- A concrete agent state used by witnesses: `poolA/m1` and `poolA/m2`
recorded `up`, nothing published yet. -/
def wState : AgentState :=
  { last_pool_states := fun q =>
      if q = "poolA/m1" then some "up"
      else if q = "poolA/m2" then some "up" else none
    current_pool_members := []
    current_logs := [] }

/-- Witness for C1: a concrete cycle in which `poolA/m1` was recorded
`up` and is fetched `down` (notification fires), instantiating the
theorem with both hypotheses discharged by evaluation. -/
theorem C1_transition_iff_witness :
    (truthyList (some [wMember]) = true ∧
      (([wMember]).map stateKey).Nodup) ∧
    ((∃ e ∈ (monitorCycle wState none (some [wMember])).2, e.key = "poolA/m1") ↔
      ∃ m ∈ [wMember], stateKey m = "poolA/m1" ∧
        ∃ prev, wState.last_pool_states "poolA/m1" = some prev ∧
          prev ≠ m.state) :=
  ⟨⟨by decide, by decide⟩,
    C1_transition_iff wState none (some [wMember]) "poolA/m1"
      (by decide) (by decide)⟩

/-- C2: in a poll cycle whose member fetch is truthy, after the diff the
recorded state of every key present in the fetched list equals that
member's freshly fetched state (whether or not a notification fired),
and every key absent from the fetched list keeps its previous recorded
state. Keys are assumed pairwise distinct in the fetched list. -/
theorem C2_recorded_state (s : AgentState) (lf : Option (List String))
    (pf : Option (List PoolMember))
    (hpf : truthyList pf = true)
    (hnd : ((pf.getD []).map stateKey).Nodup) :
    (∀ m ∈ pf.getD [],
      (monitorCycle s lf pf).1.last_pool_states (stateKey m) = some m.state) ∧
    (∀ K : String, K ∉ (pf.getD []).map stateKey →
      (monitorCycle s lf pf).1.last_pool_states K = s.last_pool_states K) := by
  constructor
  · intro m hm
    rw [monitorCycle_last s lf pf hpf]
    exact diffLoop_apply_mem _ _ hnd m hm
  · intro K hK
    rw [monitorCycle_last s lf pf hpf]
    exact diffLoop_apply_not_mem _ _ _ hK

/-- Witness for C2: a concrete cycle fetching only `poolA/m1` (as `down`)
while `poolA/m2` is absent from the fetch, instantiating the theorem with
the hypotheses discharged by evaluation. -/
theorem C2_recorded_state_witness :
    (truthyList (some [wMember]) = true ∧
      (([wMember]).map stateKey).Nodup) ∧
    ((∀ m ∈ [wMember],
      (monitorCycle wState none (some [wMember])).1.last_pool_states (stateKey m)
        = some m.state) ∧
    (∀ K : String, K ∉ ([wMember]).map stateKey →
      (monitorCycle wState none (some [wMember])).1.last_pool_states K
        = wState.last_pool_states K)) :=
  ⟨⟨by decide, by decide⟩,
    C2_recorded_state wState none (some [wMember]) (by decide) (by decide)⟩

lemma monitorCycle_none (s : AgentState) (lf : Option (List String)) :
    monitorCycle s lf none =
      (if truthyList lf then { s with current_logs := lf.getD [] } else s, []) :=
  rfl

lemma monitorRun_length (interval : Nat) (script : List CycleInput) :
    ∀ s : AgentState, (monitorRun interval s script).2.length = script.length := by
  induction script with
  | nil => intro s; rfl
  | cons c rest ih =>
      intro s
      cases c with
      | mk lf pf => simp [monitorRun, ih]

/-- C4: a poll cycle whose member fetch fails (`get_pool_members`
returns `None`) leaves both the published member snapshot and the
previous-state map exactly as they were, emits no notification, and the
monitor loop still executes every remaining cycle of the script after
sleeping the configured interval for the failed cycle. -/
theorem C4_fetch_failure_preserves (interval : Nat) (s : AgentState)
    (lf : Option (List String)) (rest : List CycleInput) :
    (monitorCycle s lf none).1.current_pool_members = s.current_pool_members ∧
    (monitorCycle s lf none).1.last_pool_states = s.last_pool_states ∧
    (monitorCycle s lf none).2 = [] ∧
    (monitorRun interval s ((lf, none) :: rest)).2.length = rest.length + 1 ∧
    (monitorRun interval s ((lf, none) :: rest)).2.head? = some ([], interval) := by
  refine ⟨?_, ?_, rfl, ?_, ?_⟩
  · rw [monitorCycle_none]
    exact ite_logs_members s lf
  · rw [monitorCycle_none]
    exact ite_logs_last s lf
  · simp [monitorRun, monitorRun_length]
  · simp [monitorRun, monitorCycle_none]

/-- C9: a poll cycle whose member fetch succeeds but returns an empty
list is indistinguishable from a cycle whose member fetch failed — the
truthiness test `if pool_members:` rejects both — so the published
member snapshot and the previous-state map are left unchanged and the
console keeps rendering the previous members. -/
theorem C9_empty_fetch_like_failure (s : AgentState) (lf : Option (List String)) :
    monitorCycle s lf (some []) = monitorCycle s lf none ∧
    (monitorCycle s lf (some [])).1.current_pool_members
      = s.current_pool_members ∧
    (monitorCycle s lf (some [])).1.last_pool_states = s.last_pool_states := by
  have he : monitorCycle s lf (some []) = monitorCycle s lf none := rfl
  refine ⟨rfl, ?_, ?_⟩
  · rw [he, monitorCycle_none]
    exact ite_logs_members s lf
  · rw [he, monitorCycle_none]
    exact ite_logs_last s lf

lemma monitorCycle_logs (s : AgentState) (lf : Option (List String))
    (pf : Option (List PoolMember)) :
    (monitorCycle s lf pf).1.current_logs
      = if truthyList lf then lf.getD [] else s.current_logs := by
  by_cases hl : truthyList lf = true <;>
    by_cases hp : truthyList pf = true <;>
      simp [monitorCycle, hl, hp]

lemma monitorCycle_members (s : AgentState) (lf : Option (List String))
    (pf : Option (List PoolMember)) :
    (monitorCycle s lf pf).1.current_pool_members
      = if truthyList pf then pf.getD [] else s.current_pool_members := by
  by_cases hl : truthyList lf = true <;>
    by_cases hp : truthyList pf = true <;>
      simp [monitorCycle, hl, hp]

/-- The member `poolA/m1` as fetched `up`, used by the concurrency
counterexample as the previous cycle's published member data. -/
def wUpMember : PoolMember :=
  { pool := "poolA", member := "m1", state := "up",
    session := "monitor-enabled", address := "10.0.0.1", connectionLimit := 0 }

/-- The agent state after a previous cycle: `poolA/m1` published `up`
with that cycle's log line. -/
def wOldState : AgentState :=
  { last_pool_states := fun q => if q = "poolA/m1" then some "up" else none
    current_pool_members := [wUpMember]
    current_logs := ["cycle1-log"] }

/-- Counterexample to C3: a concrete cycle (old snapshot: one log line
and one `up` member; new fetch: a different log line and the member
`down`) in which the view observable between the two store assignments —
new logs with the old member list — is neither the fully-old nor the
fully-new snapshot, so a concurrent reader can see pool-member data from
one cycle combined with log data from another. -/
theorem C3_atomic_publish_cex :
    ¬ (∀ v ∈ cycleViews wOldState (some ["cycle2-log"]) (some [wMember]),
        v = view wOldState ∨
        v = view (monitorCycle wOldState
            (some ["cycle2-log"]) (some [wMember])).1) := by
  decide

/-- C3 (amended): publication is atomic per field but not per snapshot —
every view observable during a cycle shows, for each of the two fields
(logs, members), either the value from before the cycle or the value
after it, but the two fields may come from different cycles because the
source assigns them in two separate store writes. -/
theorem C3_field_atomicity (s : AgentState) (lf : Option (List String))
    (pf : Option (List PoolMember)) (v : ConsoleView)
    (hv : v ∈ cycleViews s lf pf) :
    (v.logs = s.current_logs ∨ v.logs = (monitorCycle s lf pf).1.current_logs) ∧
    (v.members = s.current_pool_members ∨
      v.members = (monitorCycle s lf pf).1.current_pool_members) := by
  rw [monitorCycle_logs, monitorCycle_members]
  simp only [cycleViews, List.mem_cons, List.mem_singleton] at hv
  rcases hv with rfl | rfl | rfl | h
  · exact ⟨Or.inl rfl, Or.inl rfl⟩
  · by_cases hl : truthyList lf = true <;> simp [view, hl]
  · by_cases hl : truthyList lf = true <;>
      by_cases hp : truthyList pf = true <;> simp [view, hl, hp]
  · cases h

/-- Witness for C3 (amended): the mixed intermediate view of the
counterexample cycle (new logs, old members) still satisfies field-level
atomicity. -/
theorem C3_field_atomicity_witness :
    ((⟨["cycle2-log"], [wUpMember]⟩ : ConsoleView) ∈
      cycleViews wOldState (some ["cycle2-log"]) (some [wMember])) ∧
    (((⟨["cycle2-log"], [wUpMember]⟩ : ConsoleView).logs
        = wOldState.current_logs ∨
      (⟨["cycle2-log"], [wUpMember]⟩ : ConsoleView).logs =
        (monitorCycle wOldState (some ["cycle2-log"])
          (some [wMember])).1.current_logs) ∧
    ((⟨["cycle2-log"], [wUpMember]⟩ : ConsoleView).members
        = wOldState.current_pool_members ∨
      (⟨["cycle2-log"], [wUpMember]⟩ : ConsoleView).members =
        (monitorCycle wOldState (some ["cycle2-log"])
          (some [wMember])).1.current_pool_members)) :=
  ⟨by decide,
    C3_field_atomicity wOldState (some ["cycle2-log"]) (some [wMember]) _
      (by decide)⟩

lemma poolEntries_none (perPool : String → Option (List MemberJson))
    (p : PoolJson) (h : perPool (pjName p) = none) :
    poolEntries perPool p = [] := by
  simp [poolEntries, h]

lemma poolEntries_some (perPool : String → Option (List MemberJson))
    (p : PoolJson) (ms : List MemberJson) (h : perPool (pjName p) = some ms) :
    poolEntries perPool p = ms.map (memberRecord (pjName p)) := by
  simp [poolEntries, h]

/-- C5: when the pool-list fetch succeeds but the members fetch fails
for at least one pool, `get_pool_members` still returns a list (it does
not fail outright), and that list holds exactly the records built from
the pools whose members fetch succeeded. -/
theorem C5_partial_fetch (pools : List PoolJson)
    (perPool : String → Option (List MemberJson))
    (_hfail : ∃ p ∈ pools, perPool (pjName p) = none) :
    ∃ l, get_pool_members (some pools) perPool = some l ∧
      ∀ m : PoolMember, m ∈ l ↔
        ∃ p ∈ pools, ∃ ms, perPool (pjName p) = some ms ∧
          ∃ mj ∈ ms, m = memberRecord (pjName p) mj := by
  refine ⟨pools.flatMap (poolEntries perPool), rfl, ?_⟩
  intro m
  rw [List.mem_flatMap]
  constructor
  · rintro ⟨p, hp, hm⟩
    cases hpp : perPool (pjName p) with
    | none =>
        rw [poolEntries_none _ _ hpp] at hm
        cases hm
    | some ms =>
        rw [poolEntries_some _ _ _ hpp, List.mem_map] at hm
        obtain ⟨mj, hmj, rfl⟩ := hm
        exact ⟨p, hp, ms, hpp, mj, hmj, rfl⟩
  · rintro ⟨p, hp, ms, hpp, mj, hmj, rfl⟩
    refine ⟨p, hp, ?_⟩
    rw [poolEntries_some _ _ _ hpp]
    exact List.mem_map_of_mem _ hmj

/-- A concrete member JSON record for the C5 witness. -/
def wMemberJson : MemberJson :=
  { name := some "m1", state := some "up", session := some "monitor-enabled",
    address := some "10.0.0.1", connectionLimit := some 0 }

/-- The two pools of the C5 witness. -/
def wPoolA : PoolJson := { name := some "poolA" }

def wPoolB : PoolJson := { name := some "poolB" }

/-- The per-pool fetch of the C5 witness: `poolA` succeeds with one
member, every other pool (in particular `poolB`) fails. -/
def wPerPool : String → Option (List MemberJson) :=
  fun n => if n = "poolA" then some [wMemberJson] else none

/-- Witness for C5: two pools of which `poolB` fails its members fetch;
the theorem applies with the failure hypothesis discharged by
evaluation. -/
theorem C5_partial_fetch_witness :
    (∃ p ∈ [wPoolA, wPoolB], wPerPool (pjName p) = none) ∧
    ∃ l, get_pool_members (some [wPoolA, wPoolB]) wPerPool = some l ∧
      ∀ m : PoolMember, m ∈ l ↔
        ∃ p ∈ [wPoolA, wPoolB], ∃ ms, wPerPool (pjName p) = some ms ∧
          ∃ mj ∈ ms, m = memberRecord (pjName p) mj :=
  ⟨by decide, C5_partial_fetch [wPoolA, wPoolB] wPerPool (by decide)⟩

/-- C6: for any stored member list with 8 members of which 6 are `up`
and 2 are `down`, the summary computes overall health 75% and its
`Members DOWN` section lists exactly the down members, each with pool,
member name and address; and with an empty member list the whole summary
block (division included) is skipped. -/
theorem C6_summary_health :
    (∀ ms : List PoolMember, ms.length = 8 → up_members ms = 6 →
      down_members ms = 2 →
      show_summary_health ms = some 75 ∧
      (down_lines ms).length = 2 ∧
      (∀ m ∈ ms, m.state = "down" → (m.pool, m.member, m.address) ∈ down_lines ms) ∧
      (∀ x ∈ down_lines ms, ∃ m ∈ ms, m.state = "down" ∧
        x = (m.pool, m.member, m.address))) ∧
    show_summary_health [] = none := by
  constructor
  · intro ms h8 h6 h2
    have hne : ms.isEmpty = false := by
      cases ms with
      | nil => simp at h8
      | cons a t => rfl
    refine ⟨?_, ?_, ?_, ?_⟩
    · rw [show_summary_health, hne]
      simp only [Bool.false_eq_true, if_false]
      rw [health_percentage, if_pos (by rw [h8]; norm_num), h6, h8]
      norm_num
    · have : (down_lines ms).length = down_members ms := by
        rw [down_lines, down_members, List.length_map]
      rw [this, h2]
    · intro m hm hdown
      rw [down_lines]
      refine List.mem_map_of_mem _ ?_
      rw [List.mem_filter]
      exact ⟨hm, by simp [hdown]⟩
    · intro x hx
      rw [down_lines, List.mem_map] at hx
      obtain ⟨m, hmf, rfl⟩ := hx
      rw [List.mem_filter] at hmf
      exact ⟨m, hmf.1, by simpa using hmf.2, rfl⟩
  · rfl

/-- Shorthand builder for concrete pool members in witnesses. -/
def mkMember (p m st a : String) : PoolMember :=
  { pool := p, member := m, state := st, session := "x", address := a,
    connectionLimit := 0 }

/-- The concrete 8-member list (6 `up`, 2 `down`) of the C6 witness. -/
def wSummaryList : List PoolMember :=
  [mkMember "pA" "m1" "up" "a1", mkMember "pA" "m2" "up" "a2",
    mkMember "pA" "m3" "up" "a3", mkMember "pA" "m4" "down" "a4",
    mkMember "pB" "m5" "up" "a5", mkMember "pB" "m6" "up" "a6",
    mkMember "pB" "m7" "up" "a7", mkMember "pB" "m8" "down" "a8"]

/-- Witness for C6: on the concrete 8-member list (6 `up`, 2 `down`) the
summary evaluates to 75% health, by the theorem with its count
hypotheses discharged by evaluation. -/
theorem C6_summary_health_witness :
    (wSummaryList.length = 8 ∧ up_members wSummaryList = 6 ∧
      down_members wSummaryList = 2) ∧
    show_summary_health wSummaryList = some 75 :=
  ⟨⟨by decide, by decide, by decide⟩,
    (C6_summary_health.1 wSummaryList (by decide) (by decide) (by decide)).1⟩

lemma pool_command_ne (c : String) (hs : pyStartsWith c "pool " = true) :
    ¬(c = "quit" ∨ c = "exit") ∧ ¬(c = "help") ∧ ¬(c = "status") ∧
      ¬(c = "pools") ∧ ¬(c = "virtual" ∨ c = "virtuals") := by
  refine ⟨?_, ?_, ?_, ?_, ?_⟩
  · rintro (hc | hc) <;> rw [hc] at hs <;> exact absurd hs (by decide)
  · intro hc; rw [hc] at hs; exact absurd hs (by decide)
  · intro hc; rw [hc] at hs; exact absurd hs (by decide)
  · intro hc; rw [hc] at hs; exact absurd hs (by decide)
  · rintro (hc | hc) <;> rw [hc] at hs <;> exact absurd hs (by decide)

/-- C7: a `pool <name>` lookup against the empty member list (no
successful poll yet) reports the pool as not found, and the console
dispatch of any line whose stripped-and-lowercased form starts with
`pool ` performs exactly the pool-details rendering and continues the
loop — it neither exits nor escapes the dispatch. -/
theorem C7_pool_before_poll (name s : String)
    (hs : pyStartsWith (consoleCommand s) "pool " = true) :
    show_pool_details [] name = PoolDetailsResult.notFound name ∧
    consoleStep (ConsoleEvent.line s) =
      ([ConsoleAction.showPoolDetails (pySliceFrom (consoleCommand s) 5)],
        LoopCtl.cont) := by
  obtain ⟨h1, h2, h3, h4, h5⟩ := pool_command_ne _ hs
  refine ⟨rfl, ?_⟩
  simp only [consoleStep]
  rw [if_neg h1, if_neg h2, if_neg h3, if_neg h4, if_neg h5, if_pos hs]

/-- Witness for C7: the literal line `pool poolA` before any poll. -/
theorem C7_pool_before_poll_witness :
    pyStartsWith (consoleCommand "pool poolA") "pool " = true ∧
    (show_pool_details [] "poola" = PoolDetailsResult.notFound "poola" ∧
      consoleStep (ConsoleEvent.line "pool poolA") =
        ([ConsoleAction.showPoolDetails
            (pySliceFrom (consoleCommand "pool poolA") 5)], LoopCtl.cont)) :=
  ⟨by decide, C7_pool_before_poll "poola" "pool poolA" (by decide)⟩

/-- Counterexample to C8: on the `quit` command the console halts the
loop with the monitoring flag cleared, but the actions it performs
before exiting contain no join/wait on the poller thread — the process
exits without synchronizing with the poller (which was started as a
daemon thread and is killed by process exit). -/
theorem C8_shutdown_cex :
    (consoleStep (ConsoleEvent.line "quit")).2 = LoopCtl.halt ∧
    ConsoleAction.setMonitoring false ∈ (consoleStep (ConsoleEvent.line "quit")).1 ∧
    ConsoleAction.joinPoller ∉ (consoleStep (ConsoleEvent.line "quit")).1 := by
  decide

/-- C8 (amended): on every exit path — `quit`, `exit`, end-of-input, or
keyboard interrupt — the console clears the monitoring flag and halts
the loop immediately; on none of them does it join or otherwise wait for
the poller thread, which `interactive_mode` started as a daemon thread,
so the process exits without synchronizing with the poller. -/
theorem C8_shutdown_no_join :
    ((consoleStep (ConsoleEvent.line "quit")).2 = LoopCtl.halt ∧
      ConsoleAction.setMonitoring false ∈ (consoleStep (ConsoleEvent.line "quit")).1 ∧
      ConsoleAction.joinPoller ∉ (consoleStep (ConsoleEvent.line "quit")).1) ∧
    ((consoleStep (ConsoleEvent.line "exit")).2 = LoopCtl.halt ∧
      ConsoleAction.setMonitoring false ∈ (consoleStep (ConsoleEvent.line "exit")).1 ∧
      ConsoleAction.joinPoller ∉ (consoleStep (ConsoleEvent.line "exit")).1) ∧
    ((consoleStep ConsoleEvent.eof).2 = LoopCtl.halt ∧
      ConsoleAction.setMonitoring false ∈ (consoleStep ConsoleEvent.eof).1 ∧
      ConsoleAction.joinPoller ∉ (consoleStep ConsoleEvent.eof).1) ∧
    ((consoleStep ConsoleEvent.interrupt).2 = LoopCtl.halt ∧
      ConsoleAction.setMonitoring false ∈ (consoleStep ConsoleEvent.interrupt).1 ∧
      ConsoleAction.joinPoller ∉ (consoleStep ConsoleEvent.interrupt).1) ∧
    ConsoleAction.startPollerDaemon true ∈ interactiveSetup := by
  decide

/-- C10: the console lowercases the whole line before dispatch, so the
argument of `pool <name>` is all-lowercase while stored pool names keep
their fetched case. Hence: the parsed argument never equals a pool name
containing an ASCII-uppercase character; every member the lookup can
render belongs to a pool whose stored name has no uppercase character;
and if every stored member belongs to such an uppercase-named pool, the
command reports not found. -/
theorem C10_lowercase_lookup (s P : String) (ms : List PoolMember)
    (hP : P.data.any isUpperASCII = true) :
    pySliceFrom (consoleCommand s) 5 ≠ P ∧
    (∀ m ∈ ms.filter (fun m => m.pool == pySliceFrom (consoleCommand s) 5),
      m.pool.data.any isUpperASCII = false) ∧
    ((∀ m ∈ ms, m.pool = P) →
      show_pool_details ms (pySliceFrom (consoleCommand s) 5) =
        PoolDetailsResult.notFound (pySliceFrom (consoleCommand s) 5)) := by
  have hne : pySliceFrom (consoleCommand s) 5 ≠ P := by
    intro he
    rw [List.any_eq_true] at hP
    obtain ⟨c, hcP, hcU⟩ := hP
    have hfalse : isUpperASCII c = false := by
      apply pySliceFrom_consoleCommand_no_upper s
      rw [he]
      exact hcP
    rw [hfalse] at hcU
    cases hcU
  refine ⟨hne, ?_, ?_⟩
  · intro m hm
    rw [List.mem_filter] at hm
    have hmp : m.pool = pySliceFrom (consoleCommand s) 5 := by
      simpa using hm.2
    rw [hmp, List.any_eq_false]
    intro c hc
    rw [pySliceFrom_consoleCommand_no_upper s c hc]
    simp
  · intro hall
    have hfe : ms.filter (fun m => m.pool == pySliceFrom (consoleCommand s) 5)
        = [] := by
      rw [List.filter_eq_nil_iff]
      intro m hm
      simp only [beq_iff_eq]
      rw [hall m hm]
      exact fun he => hne he.symm
    rw [show_pool_details]
    rw [hfe]
    rfl

/-- Witness for C10: the stored pool name `WebPool` contains uppercase
characters, so the command line `pool WebPool` (lowercased by the
console to `pool webpool`) can never match it. -/
theorem C10_lowercase_lookup_witness :
    ("WebPool".data.any isUpperASCII = true) ∧
    (pySliceFrom (consoleCommand "pool WebPool") 5 ≠ "WebPool" ∧
      (∀ m ∈ ([mkMember "WebPool" "m1" "up" "a1"]).filter
          (fun m => m.pool == pySliceFrom (consoleCommand "pool WebPool") 5),
        m.pool.data.any isUpperASCII = false) ∧
      ((∀ m ∈ [mkMember "WebPool" "m1" "up" "a1"], m.pool = "WebPool") →
        show_pool_details [mkMember "WebPool" "m1" "up" "a1"]
            (pySliceFrom (consoleCommand "pool WebPool") 5) =
          PoolDetailsResult.notFound
            (pySliceFrom (consoleCommand "pool WebPool") 5))) :=
  ⟨by decide,
    C10_lowercase_lookup "pool WebPool" "WebPool"
      [mkMember "WebPool" "m1" "up" "a1"] (by decide)⟩
